import Mathlib

/-!
# Verification of the arcanus-vpn-telegram-bot request pipeline

Shallow embedding of the request-processing pipeline of the
`smirnoffmg/arcanus-vpn-telegram-bot` repository: the per-user rate limiter
(`internal/bot` rate limiter file) and the middleware chain
(`internal/middleware/middleware.go`), together with proofs of the
behavioural properties stated in the specification.

Modelling conventions:

* Go `time.Time` values are modelled as `Nat` timestamps counted in
  nanoseconds (the granularity of Go's `time.Duration`); `a.Sub(b) > d`
  becomes `d < a - b` with truncated `Nat` subtraction, which agrees with Go
  for monotone clocks (a negative Go duration is never `> d` for the positive
  constants used here, and truncated subtraction yields `0` in that case).
* The Go `map[int64]*UserLimit` is modelled as a total function
  `Int → Option UserLimit`; update-in-place through a pointer becomes a
  functional map update, since `Allow` holds the mutex for the full call.
* `Count int` only ever holds `0`, resets to `0`, or is incremented, so it is
  modelled as `Nat`.
-/

set_option autoImplicit false

namespace Arcanus

/-! ## Time constants (nanoseconds, as Go `time.Duration`) -/

def nanosPerSecond : Nat := 1000000000

/-- Go `time.Minute`. -/
def timeMinute : Nat := 60 * nanosPerSecond

/-- Go `10 * time.Minute`, the block duration of the rate limiter. -/
def blockDuration : Nat := 10 * timeMinute

/-- Go `time.Hour`, the retention horizon of the cleanup sweep. -/
def timeHour : Nat := 60 * timeMinute

/-! ## Rate limiter state (`UserLimit`, `RateLimiter.limits`) -/

/-- Go `UserLimit`: per-user admission state. -/
structure UserLimit where
  lastRequest : Nat
  count : Nat
  blocked : Bool
  blockedAt : Nat
deriving DecidableEq, Repr

/-- The rate limiter's `limits` map, `map[int64]*UserLimit`. -/
structure RateLimiterState where
  limits : Int → Option UserLimit

/-- `rl.limits[userID] = l` (map write under the limiter's mutex). -/
def setLimit (rl : RateLimiterState) (userID : Int) (l : UserLimit) :
    RateLimiterState :=
  ⟨fun k => if k = userID then some l else rl.limits k⟩

/-- Steps 3–6 of `RateLimiter.Allow`: window reset, increment, block check.
Reached once the entry exists and is not (any longer) blocked. -/
def allowTail (rl : RateLimiterState) (userID : Int) (now : Nat)
    (limit : UserLimit) : Bool × RateLimiterState :=
  let l1 :=
    if timeMinute < now - limit.lastRequest then
      { limit with count := 0, lastRequest := now }
    else limit
  let l2 := { l1 with count := l1.count + 1, lastRequest := now }
  if 20 < l2.count then
    (false, setLimit rl userID { l2 with blocked := true, blockedAt := now })
  else
    (true, setLimit rl userID l2)

/-- Go `RateLimiter.Allow`, with the call time `now` made explicit.
Returns the admission decision and the post-state of the `limits` map. -/
def Allow (rl : RateLimiterState) (userID : Int) (now : Nat) :
    Bool × RateLimiterState :=
  match rl.limits userID with
  | none =>
      (true, setLimit rl userID ⟨now, 1, false, 0⟩)
  | some limit =>
      if limit.blocked then
        if blockDuration < now - limit.blockedAt then
          allowTail rl userID now { limit with blocked := false, count := 0 }
        else
          (false, rl)
      else
        allowTail rl userID now limit

/-- Go `RateLimiter.cleanup`: remove every entry whose `LastRequest` is more
than one hour before `now`. -/
def cleanup (rl : RateLimiterState) (now : Nat) : RateLimiterState :=
  ⟨fun k =>
    match rl.limits k with
    | some limit =>
        if timeHour < now - limit.lastRequest then none else some limit
    | none => none⟩

/-- A sequence of `Allow` calls for one user at the given times; returns the
list of decisions and the final state. -/
def runAllow (rl : RateLimiterState) (userID : Int) :
    List Nat → List Bool × RateLimiterState
  | [] => ([], rl)
  | t :: ts =>
      let step := Allow rl userID t
      let rest := runAllow step.2 userID ts
      (step.1 :: rest.1, rest.2)

/-- The empty limiter map, as built by `NewRateLimiter`. -/
def emptyLimiter : RateLimiterState := ⟨fun _ => none⟩

example : (Allow emptyLimiter 7 0).1 = true := by decide
example : (Allow emptyLimiter 7 0).2.limits 7 = some ⟨0, 1, false, 0⟩ := by
  decide
example :
    (runAllow emptyLimiter 7 (List.replicate 21 5)).1 =
      List.replicate 20 true ++ [false] := by decide
example :
    (runAllow emptyLimiter 7 (List.replicate 21 5)).2.limits 7 =
      some ⟨5, 21, true, 5⟩ := by decide

/-! ## Basic `Allow` step lemmas -/

/-- A fresh identity is admitted with a new entry `⟨now, 1, false, 0⟩`. -/
theorem allow_fresh (rl : RateLimiterState) (userID : Int) (now : Nat)
    (h : rl.limits userID = none) :
    Allow rl userID now = (true, setLimit rl userID ⟨now, 1, false, 0⟩) := by
  simp [Allow, h]

/-- An unblocked in-window call with room left in the window is admitted and
just increments the count. -/
theorem allow_inWindow_true (rl : RateLimiterState) (userID : Int)
    (now last k bAt : Nat)
    (h : rl.limits userID = some ⟨last, k, false, bAt⟩)
    (hwin : now - last ≤ timeMinute) (hk : k + 1 ≤ 20) :
    Allow rl userID now = (true, setLimit rl userID ⟨now, k + 1, false, bAt⟩) := by
  have h1 : ¬ timeMinute < now - last := Nat.not_lt.mpr hwin
  have h2 : ¬ 20 < k + 1 := by omega
  simp [Allow, allowTail, h, h1, h2]

/-- An unblocked in-window call that pushes the count over 20 is rejected and
blocks the identity at `now`. -/
theorem allow_inWindow_block (rl : RateLimiterState) (userID : Int)
    (now last k bAt : Nat)
    (h : rl.limits userID = some ⟨last, k, false, bAt⟩)
    (hwin : now - last ≤ timeMinute) (hk : 20 < k + 1) :
    Allow rl userID now =
      (false, setLimit rl userID ⟨now, k + 1, true, now⟩) := by
  have h1 : ¬ timeMinute < now - last := Nat.not_lt.mpr hwin
  simp [Allow, allowTail, h, h1, hk]

theorem setLimit_limits_self (rl : RateLimiterState) (userID : Int)
    (l : UserLimit) : (setLimit rl userID l).limits userID = some l := by
  simp [setLimit]

/-! ## Window-burst runs -/

/-- Strengthening of a same-window monotone run: each element dominates its
predecessor by at most one window length. -/
theorem chain_window {t1 : Nat} :
    ∀ {rest : List Nat} {a : Nat}, t1 ≤ a →
      List.Chain (fun x y => x ≤ y) a rest →
      (∀ t ∈ rest, t ≤ t1 + timeMinute) →
      List.Chain (fun x y => x ≤ y ∧ y ≤ x + timeMinute) a rest := by
  intro rest
  induction rest with
  | nil => intro a _ _ _; exact List.Chain.nil
  | cons b rest ih =>
      intro a ht hchain hwin
      cases hchain with
      | cons hab hchain =>
          refine List.Chain.cons ⟨hab, ?_⟩ ?_
          · calc b ≤ t1 + timeMinute := hwin b (List.mem_cons_self b rest)
              _ ≤ a + timeMinute := by omega
          · exact ih (le_trans ht hab) hchain
              (fun t htmem => hwin t (List.mem_cons_of_mem b htmem))

theorem runAllow_cons_fst (rl : RateLimiterState) (userID : Int) (t : Nat)
    (ts : List Nat) :
    (runAllow rl userID (t :: ts)).1 =
      (Allow rl userID t).1 ::
        (runAllow (Allow rl userID t).2 userID ts).1 := rfl

theorem runAllow_cons_snd (rl : RateLimiterState) (userID : Int) (t : Nat)
    (ts : List Nat) :
    (runAllow rl userID (t :: ts)).2 =
      (runAllow (Allow rl userID t).2 userID ts).2 := rfl

/-- Running a burst that exhausts the window from an unblocked entry with
count `k`: every call but the last is admitted, the last call is rejected and
blocks the identity at its own call time. -/
theorem runAllow_burst (userID : Int) (bAt : Nat) :
    ∀ (ts : List Nat) (rl : RateLimiterState) (last k : Nat),
      rl.limits userID = some ⟨last, k, false, bAt⟩ →
      List.Chain (fun x y => x ≤ y ∧ y ≤ x + timeMinute) last ts →
      k + ts.length = 21 → k ≤ 20 →
      (runAllow rl userID ts).1 =
        List.replicate (ts.length - 1) true ++ [false] ∧
      (runAllow rl userID ts).2.limits userID =
        some ⟨ts.getLastD last, 21, true, ts.getLastD last⟩ := by
  intro ts
  induction ts with
  | nil => intro rl last k _ _ hlen hk; simp at hlen; omega
  | cons t ts ih =>
      intro rl last k h hchain hlen hk
      cases hchain with
      | cons hstep hchain =>
          have hwin : t - last ≤ timeMinute := by omega
          cases ts with
          | nil =>
              have hk20 : k = 20 := by simpa using hlen
              subst hk20
              have hcall := allow_inWindow_block rl userID t last 20 bAt h hwin
                (by omega)
              simp [runAllow, hcall, setLimit_limits_self]
          | cons t2 ts2 =>
              have hlen' : k + (ts2.length + 2) = 21 := by simpa using hlen
              have hk' : k + 1 ≤ 20 := by omega
              have hcall := allow_inWindow_true rl userID t last k bAt h hwin hk'
              have hc1 : (Allow rl userID t).1 = true := by rw [hcall]
              have hc2 : (Allow rl userID t).2 =
                  setLimit rl userID ⟨t, k + 1, false, bAt⟩ := by rw [hcall]
              have hrec := ih (setLimit rl userID ⟨t, k + 1, false, bAt⟩) t
                (k + 1) (setLimit_limits_self rl userID _) hchain
                (by simp; omega) hk'
              refine ⟨?_, ?_⟩
              · rw [runAllow_cons_fst, hc1, hc2, hrec.1]
                simp [List.replicate_succ]
              · rw [runAllow_cons_snd, hc2]
                exact hrec.2

/-- C1: for a fresh identity, 21 calls all lying in one 60-second window are
admitted for calls 1–20; call 21 is rejected and blocks the identity with
`blockedAt` equal to the time of call 21. -/
theorem C1_admission_threshold (rl : RateLimiterState) (userID : Int)
    (t1 : Nat) (rest : List Nat)
    (hfresh : rl.limits userID = none)
    (hlen : rest.length = 20)
    (hmono : List.Chain (fun x y => x ≤ y) t1 rest)
    (hwin : ∀ t ∈ rest, t ≤ t1 + timeMinute) :
    (runAllow rl userID (t1 :: rest)).1 =
      List.replicate 20 true ++ [false] ∧
    (runAllow rl userID (t1 :: rest)).2.limits userID =
      some ⟨rest.getLastD t1, 21, true, rest.getLastD t1⟩ := by
  have hcall := allow_fresh rl userID t1 hfresh
  have hchain : List.Chain (fun x y => x ≤ y ∧ y ≤ x + timeMinute) t1 rest :=
    chain_window (le_refl t1) hmono hwin
  have hrec := runAllow_burst userID 0 rest
    (setLimit rl userID ⟨t1, 1, false, 0⟩) t1 1
    (setLimit_limits_self rl userID _) hchain (by omega) (by omega)
  have hc1 : (Allow rl userID t1).1 = true := by rw [hcall]
  have hc2 : (Allow rl userID t1).2 = setLimit rl userID ⟨t1, 1, false, 0⟩ := by
    rw [hcall]
  refine ⟨?_, ?_⟩
  · rw [runAllow_cons_fst, hc1, hc2, hrec.1, hlen]
    simp [List.replicate_succ]
  · rw [runAllow_cons_snd, hc2]
    exact hrec.2

/-- Witness for C1 at 21 calls, all at time 5, for identity 7 on the empty
limiter. -/
theorem C1_admission_threshold_witness :
    (runAllow emptyLimiter 7
        (5 :: [5, 5, 5, 5, 5, 5, 5, 5, 5, 5, 5, 5, 5, 5, 5, 5, 5, 5, 5, 5])).1 =
      List.replicate 20 true ++ [false] ∧
    (runAllow emptyLimiter 7
        (5 :: [5, 5, 5, 5, 5, 5, 5, 5, 5, 5, 5, 5, 5, 5, 5, 5, 5, 5, 5, 5])).2.limits
        7 =
      some ⟨[5, 5, 5, 5, 5, 5, 5, 5, 5, 5, 5, 5, 5, 5, 5, 5, 5, 5, 5,
        5].getLastD 5, 21, true,
        [5, 5, 5, 5, 5, 5, 5, 5, 5, 5, 5, 5, 5, 5, 5, 5, 5, 5, 5,
          5].getLastD 5⟩ :=
  C1_admission_threshold emptyLimiter 7 5
    [5, 5, 5, 5, 5, 5, 5, 5, 5, 5, 5, 5, 5, 5, 5, 5, 5, 5, 5, 5] rfl
    (by decide)
    (by repeat first
          | exact List.Chain.nil
          | refine List.Chain.cons (by omega) ?_)
    (by decide)

/-! ## Block expiry (C2) -/

/-- The state after a user has been blocked by 21 calls at time 0: the entry
for identity 1 is `⟨0, 21, true, 0⟩`. -/
def blockedState : RateLimiterState :=
  (runAllow emptyLimiter 1 (List.replicate 21 0)).2

/-- C2 counterexample: identity 1 is blocked by the 21st call at time 0, and a
call made exactly 10 minutes after the blocking call — which is "at least 10
minutes" after it — is still rejected, because the code unblocks only on a
strict `now - blockedAt > 10*time.Minute`. -/
theorem C2_block_expiry_counterexample :
    blockedState.limits 1 = some ⟨0, 21, true, 0⟩ ∧
    (Allow blockedState 1 blockDuration).1 = false := by
  constructor
  · decide
  · decide

/-- C2 (amended): after a rejection at call 21 (entry `⟨tb, 21, true, tb⟩`),
a call made strictly more than 10 minutes after the blocking call is admitted,
clears the blocked flag, and restarts the count at 1. -/
theorem C2_block_expiry (rl : RateLimiterState) (userID : Int) (tb now : Nat)
    (h : rl.limits userID = some ⟨tb, 21, true, tb⟩)
    (hexp : blockDuration < now - tb) :
    Allow rl userID now = (true, setLimit rl userID ⟨now, 1, false, tb⟩) := by
  have hreset : timeMinute < now - tb := by
    have : timeMinute < blockDuration := by
      simp [timeMinute, blockDuration, nanosPerSecond]
    omega
  simp [Allow, allowTail, h, hexp, hreset]

/-- Witness for C2 at the concrete blocked state, one nanosecond past the
10-minute block duration. -/
theorem C2_block_expiry_witness :
    Allow blockedState 1 (blockDuration + 1) =
      (true, setLimit blockedState 1 ⟨blockDuration + 1, 1, false, 0⟩) :=
  C2_block_expiry blockedState 1 0 (blockDuration + 1) (by decide) (by decide)

/-! ## Frame property of a rejected blocked call (C10) -/

/-- C10: a call for a blocked identity whose block has not yet expired
(`now - blockedAt ≤ 10*time.Minute`) is rejected and the limiter state is
returned untouched: the identity's entry keeps every field, and no other
identity's entry changes. -/
theorem C10_blocked_frame (rl : RateLimiterState) (userID : Int) (now : Nat)
    (l : UserLimit) (h : rl.limits userID = some l) (hb : l.blocked = true)
    (hexp : now - l.blockedAt ≤ blockDuration) :
    Allow rl userID now = (false, rl) := by
  obtain ⟨last, k, b, bAt⟩ := l
  simp only [UserLimit.blocked] at hb
  subst hb
  have h1 : ¬ blockDuration < now - bAt := Nat.not_lt.mpr hexp
  simp [Allow, h, h1]

/-- Witness for C10: a call 5 minutes into the block is rejected and leaves
the state exactly as it was. -/
theorem C10_blocked_frame_witness :
    Allow blockedState 1 (5 * timeMinute) = (false, blockedState) :=
  C10_blocked_frame blockedState 1 (5 * timeMinute) ⟨0, 21, true, 0⟩
    (by decide) rfl (by decide)

/-! ## Retention sweep (C8) -/

/-- C8: the sweep removes any entry whose last request is more than one hour
in the past, and a subsequent call for that identity behaves exactly as a
fresh identity: admitted, with a brand-new entry of count 1, regardless of
the removed entry's count or blocked state. -/
theorem C8_retention_sweep (rl : RateLimiterState) (userID : Int)
    (l : UserLimit) (now t2 : Nat) (h : rl.limits userID = some l)
    (hold : timeHour < now - l.lastRequest) :
    (cleanup rl now).limits userID = none ∧
    Allow (cleanup rl now) userID t2 =
      (true, setLimit (cleanup rl now) userID ⟨t2, 1, false, 0⟩) := by
  have h1 : (cleanup rl now).limits userID = none := by
    simp [cleanup, h, hold]
  exact ⟨h1, allow_fresh _ _ _ h1⟩

/-- Witness for C8: the blocked entry of identity 1 (count 21, blocked) is
swept an hour and a minute later, after which a new call is admitted fresh. -/
theorem C8_retention_sweep_witness :
    (cleanup blockedState (timeHour + timeMinute)).limits 1 = none ∧
    Allow (cleanup blockedState (timeHour + timeMinute)) 1
        (timeHour + timeMinute) =
      (true, setLimit (cleanup blockedState (timeHour + timeMinute)) 1
        ⟨timeHour + timeMinute, 1, false, 0⟩) :=
  C8_retention_sweep blockedState 1 ⟨0, 21, true, 0⟩ (timeHour + timeMinute)
    (timeHour + timeMinute) (by decide) (by decide)

/-! ## Middleware model (`internal/middleware/middleware.go`)

Handlers are `HandlerFunc func(ctx context.Context, data interface{}) error`.
The embedding makes the implicit effects explicit:

* A handler's observable side effects (audit records, marker writes, terminal
  invocations) are threaded as a `List Event` trace.
* A Go call either returns an `error` (`none` = nil = success) or panics; the
  result type `HResult` separates the two, and a panic value either is an
  `error` (`PanicValue.errVal`) or is not (`PanicValue.other`).
* The `data interface{}` argument is `HandlerData`: either an actual
  `*RequestData` (the type assertion succeeds) or anything else.
* The `context.Context` argument is not modelled: of the middlewares embedded
  here none inspects it, they only pass it through (the timeout middleware,
  which does use it, has its own timed model below).
-/

/-- Sentinel errors of the middleware package plus pass-through domain
errors of the terminal handler. -/
inductive GoErr where
  | internalError
  | timeoutErr
  | rateLimitExceeded
  | invalidRequestData
  | domain (msg : String)
deriving DecidableEq, Repr

/-- A Go panic value: either an `error` (the `r.(error)` assertion succeeds)
or any non-error value. -/
inductive PanicValue where
  | errVal (e : GoErr)
  | other (msg : String)
deriving DecidableEq, Repr

/-- How a Go call ends: a normal return (`none` = nil error) or a panic. -/
inductive HResult where
  | ret (e : Option GoErr)
  | panicked (v : PanicValue)
deriving DecidableEq, Repr

/-- Observable side effects of a handler invocation. -/
inductive Event where
  | marker (tag : String)
  | terminalCall
  | auditRecord (userID : Int) (action : String) (timestamp : Nat)
deriving DecidableEq, Repr

/-- The fields of `tgbotapi.Message` the pipeline reads. -/
structure TgMessage where
  text : String
  fromID : Int
  chatID : Int
  userName : String
deriving DecidableEq, Repr

/-- The fields of `tgbotapi.CallbackQuery` the pipeline reads (`chatID` is
the chat of the callback's originating message). -/
structure TgCallback where
  cbData : String
  fromID : Int
  chatID : Int
  userName : String
deriving DecidableEq, Repr

/-- The fields of `tgbotapi.Update` the pipeline reads. -/
structure TgUpdate where
  message : Option TgMessage
  callbackQuery : Option TgCallback
deriving DecidableEq, Repr

/-- Go `middleware.RequestData` (the `Update` back-pointer is omitted; no
middleware reads it). -/
structure RequestData where
  message : Option TgMessage
  callback : Option TgCallback
  userID : Int
  chatID : Int
  username : String
deriving DecidableEq, Repr

/-- Go `middleware.NewRequestDataFromUpdate`: populate from `update.Message`
if present, then from `update.CallbackQuery` if present. -/
def NewRequestDataFromUpdate (update : TgUpdate) : RequestData :=
  let d0 : RequestData :=
    { message := none
      callback := none
      userID := 0
      chatID := 0
      username := "" }
  let d1 :=
    match update.message with
    | some m =>
        { d0 with
          message := some m
          userID := m.fromID
          chatID := m.chatID
          username := m.userName }
    | none => d0
  match update.callbackQuery with
  | some c =>
      { d1 with
        callback := some c
        userID := c.fromID
        chatID := c.chatID
        username := c.userName }
  | none => d1

/-- The `data interface{}` parameter: the `data.(*RequestData)` assertion
either succeeds or fails. -/
inductive HandlerData where
  | requestData (rd : RequestData)
  | otherData
deriving DecidableEq, Repr

/-- Go `middleware.HandlerFunc`, with the effect trace made explicit. -/
def HandlerFunc : Type := HandlerData → List Event → List Event × HResult

/-- Go `middleware.Middleware`. -/
def Middleware : Type := HandlerFunc → HandlerFunc

/-- Go `middleware.Chain`: apply the middlewares in reverse order, so that
the first middleware in the list ends up outermost. -/
def Chain (handler : HandlerFunc) (middlewares : List Middleware) :
    HandlerFunc :=
  middlewares.reverse.foldl (fun h m => m h) handler

/-- The recovered error of Go's `Recovery`/`Timeout` recover blocks: a panic
value that is an error yields that error, anything else yields
`ErrInternalError`. -/
def recoverToErr : PanicValue → GoErr
  | .errVal e => e
  | .other _ => .internalError

/-- Go `middleware.Recovery`: a deferred `recover` turns a panic of the inner
call into a returned error; normal returns pass through. -/
def Recovery : Middleware := fun next dat evs =>
  match next dat evs with
  | (evs2, .ret e) => (evs2, .ret e)
  | (evs2, .panicked v) => (evs2, .ret (some (recoverToErr v)))

/-- Go `middleware.RateLimit`: reject when the `data` assertion fails, reject
without calling `next` when the limiter says no, otherwise delegate. The
limiter is the `RateLimiter` interface, `Allow(userID int64) bool`. -/
def RateLimit (allow : Int → Bool) : Middleware := fun next dat evs =>
  match dat with
  | .otherData => (evs, .ret (some .invalidRequestData))
  | .requestData rd =>
      if allow rd.userID then next dat evs
      else (evs, .ret (some .rateLimitExceeded))

/-- Go `middleware.Audit`: derive the action label from the populated
variant, record `(userID, action, now)` on the audit sink, then delegate.
`now` is the value of `time.Now()` at the recording. -/
def Audit (now : Nat) : Middleware := fun next dat evs =>
  match dat with
  | .otherData => (evs, .ret (some .invalidRequestData))
  | .requestData rd =>
      let action :=
        match rd.message with
        | some m => "message:" ++ m.text
        | none =>
            match rd.callback with
            | some c => "callback:" ++ c.cbData
            | none => "unknown"
      next dat (evs ++ [.auditRecord rd.userID action now])

/-- A marker middleware for the chain-ordering property: appends
`name_in` before delegating and `name_out` after. -/
def markerMw (name : String) : Middleware := fun next dat evs =>
  let r := next dat (evs ++ [.marker (name ++ "_in")])
  (r.1 ++ [.marker (name ++ "_out")], r.2)

/-- A terminal handler that records its own invocation and succeeds. -/
def terminalMarker : HandlerFunc := fun _ evs =>
  (evs ++ [.marker "terminal"], .ret none)

/-! ## Timed model of the Timeout middleware

`middleware.Timeout` races the inner handler, run on its own goroutine with a
deferred `recover` feeding `resultChan`, against the deadline of a derived
`context.WithTimeout`. Wall-clock behaviour is abstracted by a completion
cost: the inner handler's goroutine terminates `cost` time units after the
wrapped call starts, while the deadline context fires at `d` units. -/

/-- How and when the inner handler's goroutine terminates. -/
structure TimedOutcome where
  result : HResult
  cost : Nat
deriving DecidableEq, Repr

/-- The value the goroutine sends on `resultChan`: the returned error on a
normal return, the recovered error (`recover` block of the goroutine) on a
panic. -/
def chanMessage (o : TimedOutcome) : Option GoErr :=
  match o.result with
  | .ret e => e
  | .panicked v => some (recoverToErr v)

/-- The `select` of `middleware.Timeout`: the channel message at time `cost`
if the goroutine beats the deadline, otherwise `ErrTimeout` at time `d`. The
second component is when the wrapped call returns. -/
def timeoutSelect (d : Nat) (o : TimedOutcome) : Option GoErr × Nat :=
  if o.cost < d then (chanMessage o, o.cost) else (some .timeoutErr, d)

/-! ## Claim theorems for the middleware chain -/

/-- C3: `Chain` nests the middlewares with the first in the list outermost
(`Chain h [m1, …, mN] = m1 (m2 (… mN h))`, i.e. a right fold), and marker
middlewares `[L, R, T, A]` around a terminal handler observe the sequence
`L_in, R_in, T_in, A_in, terminal, A_out, T_out, R_out, L_out`. -/
theorem C3_chain_order :
    (∀ (handler : HandlerFunc) (middlewares : List Middleware),
      Chain handler middlewares =
        middlewares.foldr (fun m h => m h) handler) ∧
    (∀ dat : HandlerData,
      (Chain terminalMarker
          [markerMw "L", markerMw "R", markerMw "T", markerMw "A"] dat []).1 =
        [.marker "L_in", .marker "R_in", .marker "T_in", .marker "A_in",
          .marker "terminal", .marker "A_out", .marker "T_out",
          .marker "R_out", .marker "L_out"]) := by
  constructor
  · intro handler middlewares
    rw [Chain, List.foldl_reverse]
  · intro dat
    rfl

/-- C4: the Recovery middleware turns a panic carrying an error into exactly
that error, turns a non-error panic into `ErrInternalError`, and passes
normal returns (success or error) through unchanged, trace included. -/
theorem C4_recovery (next : HandlerFunc) (dat : HandlerData)
    (evs evs2 : List Event) :
    (∀ e, next dat evs = (evs2, .panicked (.errVal e)) →
      Recovery next dat evs = (evs2, .ret (some e))) ∧
    (∀ msg, next dat evs = (evs2, .panicked (.other msg)) →
      Recovery next dat evs = (evs2, .ret (some .internalError))) ∧
    (∀ r, next dat evs = (evs2, .ret r) →
      Recovery next dat evs = (evs2, .ret r)) := by
  refine ⟨fun e h => ?_, fun msg h => ?_, fun r h => ?_⟩ <;>
    simp [Recovery, h, recoverToErr]

/-- A handler that panics with a non-error value. -/
def panickyHandler : HandlerFunc := fun _ evs =>
  (evs, .panicked (.other "boom"))

/-- A handler that panics with a carried error value. -/
def errPanicHandler : HandlerFunc := fun _ evs =>
  (evs, .panicked (.errVal (.domain "db gone")))

/-- Witness for C4: a non-error panic becomes the internal error; an error
panic returns the carried error. -/
theorem C4_recovery_witness :
    Recovery panickyHandler .otherData [] =
      ([], .ret (some .internalError)) ∧
    Recovery errPanicHandler .otherData [] =
      ([], .ret (some (.domain "db gone"))) :=
  ⟨(C4_recovery panickyHandler .otherData [] []).2.1 "boom" rfl,
    (C4_recovery errPanicHandler .otherData [] []).1 (.domain "db gone") rfl⟩

/-- C5 (timed model): if the inner handler completes normally before the
deadline the wrapped call returns its result at the handler's own completion
time; if the deadline elapses strictly first the wrapped call returns
`ErrTimeout` already at time `d`, without waiting for the handler; and a
panic in the goroutine is recovered into an error delivered through
`resultChan`. -/
theorem C5_timeout_race (d : Nat) (o : TimedOutcome) :
    (∀ e, o.result = .ret e → o.cost < d → timeoutSelect d o = (e, o.cost)) ∧
    (d < o.cost → timeoutSelect d o = (some .timeoutErr, d)) ∧
    (∀ v, o.result = .panicked v → chanMessage o = some (recoverToErr v)) := by
  refine ⟨fun e he hlt => ?_, fun hgt => ?_, fun v hv => ?_⟩
  · simp [timeoutSelect, hlt, chanMessage, he]
  · have hnl : ¬ o.cost < d := by omega
    simp [timeoutSelect, hnl]
  · simp [chanMessage, hv]

/-- Witness for C5: a handler finishing at 5 of 10 units returns its error;
one finishing at 50 of 10 units yields `ErrTimeout` at time 10; a panicking
goroutine's channel message is the internal error. -/
theorem C5_timeout_race_witness :
    timeoutSelect 10 ⟨.ret (some (.domain "slow db")), 5⟩ =
      (some (.domain "slow db"), 5) ∧
    timeoutSelect 10 ⟨.ret none, 50⟩ = (some .timeoutErr, 10) ∧
    chanMessage ⟨.panicked (.other "boom"), 3⟩ = some .internalError :=
  ⟨(C5_timeout_race 10 ⟨.ret (some (.domain "slow db")), 5⟩).1
      (some (.domain "slow db")) rfl (by decide),
    (C5_timeout_race 10 ⟨.ret none, 50⟩).2.1 (by decide),
    (C5_timeout_race 10 ⟨.panicked (.other "boom"), 3⟩).2.2
      (.other "boom") rfl⟩

/-- C6: when the rate limiter rejects an identity, the RateLimit middleware
returns `ErrRateLimitExceeded` with the trace untouched, independently of the
inner handler, which is therefore never invoked. -/
theorem C6_ratelimit_short_circuit (allow : Int → Bool) (next : HandlerFunc)
    (rd : RequestData) (evs : List Event)
    (hreject : allow rd.userID = false) :
    RateLimit allow next (.requestData rd) evs =
      (evs, .ret (some .rateLimitExceeded)) := by
  simp [RateLimit, hreject]

/-- A request descriptor for the blocked identity 1. -/
def blockedRD : RequestData :=
  ⟨some ⟨"/start", 1, 100, "bob"⟩, none, 1, 100, "bob"⟩

/-- Witness for C6, driven by the real rate limiter: identity 1 is blocked in
`blockedState`, so the middleware rejects and the terminal marker handler
leaves no trace of an invocation. -/
theorem C6_ratelimit_short_circuit_witness :
    RateLimit (fun uid => (Allow blockedState uid (5 * timeMinute)).1)
        terminalMarker (.requestData blockedRD) [] =
      ([], .ret (some .rateLimitExceeded)) :=
  C6_ratelimit_short_circuit
    (fun uid => (Allow blockedState uid (5 * timeMinute)).1)
    terminalMarker blockedRD [] (by decide)

/-- C7 counterexample: on an update carrying neither a message nor a callback
query, `NewRequestDataFromUpdate` populates neither variant, so "exactly one
of Message/Callback is populated" fails for this inbound update. -/
theorem C7_exactly_one_counterexample :
    (NewRequestDataFromUpdate ⟨none, none⟩).message = none ∧
    (NewRequestDataFromUpdate ⟨none, none⟩).callback = none :=
  ⟨rfl, rfl⟩

/-- C7 (amended): for every update carrying exactly one of
`Message`/`CallbackQuery`, the built descriptor populates exactly that
variant — never both, never neither.  (The embedding is pure, so the
descriptor is immutable by construction.) -/
theorem C7_exactly_one (update : TgUpdate) :
    (∀ m, update.message = some m → update.callbackQuery = none →
      (NewRequestDataFromUpdate update).message = some m ∧
      (NewRequestDataFromUpdate update).callback = none) ∧
    (∀ c, update.message = none → update.callbackQuery = some c →
      (NewRequestDataFromUpdate update).message = none ∧
      (NewRequestDataFromUpdate update).callback = some c) := by
  constructor
  · intro m hm hc
    simp [NewRequestDataFromUpdate, hm, hc]
  · intro c hm hc
    simp [NewRequestDataFromUpdate, hm, hc]

/-- Witness for C7 on a message-only and a callback-only update. -/
theorem C7_exactly_one_witness :
    ((NewRequestDataFromUpdate ⟨some ⟨"/help", 42, 100, "alice"⟩, none⟩).message =
        some ⟨"/help", 42, 100, "alice"⟩ ∧
      (NewRequestDataFromUpdate ⟨some ⟨"/help", 42, 100, "alice"⟩,
          none⟩).callback = none) ∧
    ((NewRequestDataFromUpdate ⟨none, some ⟨"trial", 42, 100, "alice"⟩⟩).message =
        none ∧
      (NewRequestDataFromUpdate ⟨none,
          some ⟨"trial", 42, 100, "alice"⟩⟩).callback =
        some ⟨"trial", 42, 100, "alice"⟩) :=
  ⟨(C7_exactly_one ⟨some ⟨"/help", 42, 100, "alice"⟩, none⟩).1
      ⟨"/help", 42, 100, "alice"⟩ rfl rfl,
    (C7_exactly_one ⟨none, some ⟨"trial", 42, 100, "alice"⟩⟩).2
      ⟨"trial", 42, 100, "alice"⟩ rfl rfl⟩

/-- C9: the Audit middleware appends the record
`(userID, actionLabel, now)` to the audit trace before delegating — with
`actionLabel = "message:" + text` for the message variant and
`"callback:" + payload` for the callback variant — and the wrapped call is
exactly the inner handler's call on the extended trace, so it always
delegates and returns the inner result. -/
theorem C9_audit_records (now : Nat) (next : HandlerFunc) (rd : RequestData)
    (evs : List Event) :
    (∀ m, rd.message = some m →
      Audit now next (.requestData rd) evs =
        next (.requestData rd)
          (evs ++ [.auditRecord rd.userID ("message:" ++ m.text) now])) ∧
    (∀ c, rd.message = none → rd.callback = some c →
      Audit now next (.requestData rd) evs =
        next (.requestData rd)
          (evs ++ [.auditRecord rd.userID ("callback:" ++ c.cbData) now])) := by
  constructor
  · intro m hm
    simp [Audit, hm]
  · intro c hm hc
    simp [Audit, hm, hc]

/-- Witness for C9: auditing `blockedRD` (a `/start` message of identity 1)
at time 77 records `message:/start` and then runs the terminal handler. -/
theorem C9_audit_records_witness :
    Audit 77 terminalMarker (.requestData blockedRD) [] =
      terminalMarker (.requestData blockedRD)
        [.auditRecord 1 ("message:" ++ "/start") 77] :=
  (C9_audit_records 77 terminalMarker blockedRD []).1
    ⟨"/start", 1, 100, "bob"⟩ rfl

end Arcanus
